import Mathlib

/-
Shallow embedding of the SMTP client in src/smtp.go.

Pure string manipulation (parseExt, validateLine, header serialization) is
translated directly.  The network is modelled by a transport state carrying a
script of server responses: each command write appends a structured `Command`
to a trace and consumes the next scripted response, mirroring
textproto's Cmd/ReadResponse pair.  Go standard-library helpers used by the
source (strings.Split, strings.SplitN, strings.ContainsAny,
textproto.TrimString, net.DNSError's Temporary/Timeout methods, textproto
response-code matching) are modelled from their documented stdlib behavior.
-/

/-- Go strings.Split with a one-character separator, at the character-list level. -/
def splitOnChar (sep : Char) : List Char → List (List Char)
  | [] => [[]]
  | c :: rest =>
    if c = sep then [] :: splitOnChar sep rest
    else
      match splitOnChar sep rest with
      | [] => [[c]]
      | g :: gs => (c :: g) :: gs

/-- Go strings.Split(s, sep) for a one-character separator sep. -/
def goSplit (s : String) (sep : Char) : List String :=
  (splitOnChar sep s.data).map String.mk

/-- Helper for Go strings.SplitN(s, " ", 2): the part before the first space
and, when a space exists, the remainder after it. -/
def breakAtSpace : List Char → List Char × Option (List Char)
  | [] => ([], none)
  | c :: rest =>
    if c = ' ' then ([], some rest)
    else
      match breakAtSpace rest with
      | (pre, post) => (c :: pre, post)

/-- Go strings.SplitN(s, " ", 2), as the first token plus the optional rest. -/
def splitN2space (s : String) : String × Option String :=
  match breakAtSpace s.data with
  | (pre, post) => (String.mk pre, post.map String.mk)

/-- Go strings.ContainsAny(line, CR LF), the check inside validateLine. -/
def containsCRLF (s : String) : Bool :=
  s.data.any (fun ch => ch == '\r' || ch == '\n')

/-- Errors a Send execution can surface in this model. -/
inductive SmtpErr where
  /-- ErrCRLFContain (src/smtp.go:17). -/
  | errCRLFContain
  /-- textproto's response-code mismatch error, carrying the actual code and message. -/
  | unexpectedCode (code : Nat) (msg : String)
  /-- an underlying read failed (the response script was exhausted). -/
  | readFailed
  deriving DecidableEq

/-- validateLine (src/smtp.go:57): ErrCRLFContain when the line holds CR or LF. -/
def validateLine (line : String) : Option SmtpErr :=
  if containsCRLF line then some SmtpErr.errCRLFContain else none

/-- Insertion into a Go string map modelled as an association list: overwrite
the entry when the key is present, otherwise append. -/
def mapInsert (m : List (String × String)) (k v : String) : List (String × String) :=
  if m.any (fun p => p.1 == k) then
    m.map (fun p => if p.1 == k then (k, v) else p)
  else m ++ [(k, v)]

/-- Lookup in a Go string map modelled as an association list. -/
def mapLookup (m : List (String × String)) (k : String) : Option String :=
  (m.find? (fun p => p.1 == k)).map (fun p => p.2)

/-- Loop body of parseExt (src/smtp.go:147-154): a line that has a parameter is
recorded and then the loop stops via break; a line without one is recorded with
an empty value and the loop continues. -/
def parseExtLoop : List String → List (String × String) → List (String × String)
  | [], ext => ext
  | extMsg :: rest, ext =>
    match splitN2space extMsg with
    | (k, some v) => mapInsert ext k v
    | (k, none) => parseExtLoop rest (mapInsert ext k "")

/-- parseExt (src/smtp.go:142): split the EHLO message on newlines and parse
every line after the first into the extension map. -/
def parseExt (ehloMsg : String) : List (String × String) :=
  let extMsgs := goSplit ehloMsg '\n'
  if extMsgs.length > 1 then parseExtLoop extMsgs.tail []
  else []

/-- Go net.MX record. -/
structure MX where
  Host : String
  Pref : Nat
  deriving DecidableEq

/-- Flags of a Go net.DNSError that the dial loop inspects. -/
structure DNSError where
  isTimeout : Bool
  isTemporary : Bool
  isNotFound : Bool
  deriving DecidableEq

/-- Go standard library: (*net.DNSError).Temporary() returns IsTimeout || IsTemporary. -/
def DNSError.temporary (e : DNSError) : Bool :=
  e.isTimeout || e.isTemporary

/-- Go standard library: (*net.DNSError).Timeout() returns IsTimeout. -/
def DNSError.timeout (e : DNSError) : Bool :=
  e.isTimeout

/-- An error from net.LookupMX: either one that errors.As fails to match as a
*net.DNSError, or a DNSError with its flags. -/
inductive LookupErr where
  | nonDNS
  | dns (e : DNSError)
  deriving DecidableEq

/-- One outcome of a net.LookupMX call. -/
inductive LookupResult where
  | ok (records : List MX)
  | err (e : LookupErr)
  deriving DecidableEq

/-- Result of the MX retry loop: records together with the list of sleeps (in
milliseconds) performed before reaching them, an error surfaced to the caller,
or divergence, meaning the fuel bound was hit without the loop exiting. -/
inductive ResolveOutcome where
  | ok (records : List MX) (delays : List Nat)
  | err (e : LookupErr) (delays : List Nat)
  | diverge
  deriving DecidableEq

/-- MX retry loop of Client.dial (src/smtp.go:70-101).  `results` gives the
outcome of the n-th LookupMX call; `tempDelay` is carried in milliseconds and
`delays` accumulates every sleep performed.  Non-DNS errors return; temporary
errors (per Go's Temporary()) sleep with doubling delay capped at 1000 ms and
retry; then timeouts return; then not-found substitutes the single fallback
record on the original host; any remaining DNSError falls through and the loop
repeats with no sleep. -/
def lookupLoop (host : String) (results : Nat → LookupResult) :
    Nat → Nat → Nat → List Nat → ResolveOutcome
  | 0, _, _, _ => ResolveOutcome.diverge
  | fuel + 1, attempt, tempDelay, delays =>
    match results attempt with
    | LookupResult.ok recs => ResolveOutcome.ok recs delays
    | LookupResult.err LookupErr.nonDNS => ResolveOutcome.err LookupErr.nonDNS delays
    | LookupResult.err (LookupErr.dns de) =>
      if de.temporary then
        let d1 := if tempDelay = 0 then 5 else tempDelay * 2
        let d2 := if d1 > 1000 then 1000 else d1
        lookupLoop host results fuel (attempt + 1) d2 (delays ++ [d2])
      else if de.timeout then ResolveOutcome.err (LookupErr.dns de) delays
      else if de.isNotFound then ResolveOutcome.ok [⟨host, 0⟩] delays
      else lookupLoop host results fuel (attempt + 1) tempDelay delays

/-- Connect targets attempted by Client.dial (src/smtp.go:102-107):
mx.Host + ":" + port for each record, in order. -/
def connectTargets (records : List MX) (port : String) : List String :=
  records.map (fun mx => mx.Host ++ ":" ++ port)

/-- One server response as textproto ReadResponse yields it: the final status
code and the newline-joined message of a possibly multi-line response. -/
structure Response where
  code : Nat
  msg : String
  deriving DecidableEq

/-- Go tls.Config, reduced to the field the source sets. -/
structure TLSConfig where
  ServerName : String
  deriving DecidableEq

/-- Commands this client writes.  Each constructor corresponds to one call site
of conn.execCmd in src/smtp.go, with the arguments substituted there. -/
inductive Command where
  | ehlo (localHost : String)
  | helo (localHost : String)
  | starttls
  | mailFrom (addr : String) (eightBitMime : Bool)
  | rcptTo (addr : String)
  | data
  | quit
  deriving DecidableEq

/-- Exact command line each call site formats into textproto Cmd. -/
def Command.wire : Command → String
  | Command.ehlo l => "EHLO " ++ l
  | Command.helo l => "HELO " ++ l
  | Command.starttls => "STARTTLS"
  | Command.mailFrom a eight =>
      "MAIL FROM:<" ++ a ++ ">" ++ (if eight then " BODY=8BITMIME" else "")
  | Command.rcptTo a => "RCPT TO:<" ++ a ++ ">"
  | Command.data => "DATA"
  | Command.quit => "QUIT"

/-- Transport state.  `serverScript` holds the remaining scripted responses;
`trace` the commands written so far, in order; `dataPayload` the bytes handed
to the DATA dot-writer; `tlsConfig` the configuration installed by startTLS
(none while the connection is plaintext); the closed flags record conn.close
running on the framing layer and the raw socket. -/
structure TState where
  serverScript : List Response
  trace : List Command
  dataPayload : Option String
  tlsConfig : Option TLSConfig
  textConnClosed : Bool
  netConnClosed : Bool
  deriving DecidableEq

/-- Fresh transport right after Client.dial succeeded (greeting already read). -/
def initConn (script : List Response) : TState :=
  { serverScript := script, trace := [], dataPayload := none, tlsConfig := none,
    textConnClosed := false, netConnClosed := false }

/-- net/textproto status matching: a one-digit expectation matches on the first
digit, a two-digit one on the first two, a three-digit one exactly. -/
def statusMatch (expectCode code : Nat) : Bool :=
  if 1 ≤ expectCode ∧ expectCode < 10 then code / 100 == expectCode
  else if 10 ≤ expectCode ∧ expectCode < 100 then code / 10 == expectCode
  else if 100 ≤ expectCode ∧ expectCode < 1000 then code == expectCode
  else true

/-- textproto ReadResponse(expectCode) against the scripted remote. -/
def readResponse (st : TState) (expectCode : Nat) :
    Except SmtpErr (Nat × String) × TState :=
  match st.serverScript with
  | [] => (Except.error SmtpErr.readFailed, st)
  | resp :: rest =>
    let st1 : TState := { st with serverScript := rest }
    if statusMatch expectCode resp.code then (Except.ok (resp.code, resp.msg), st1)
    else (Except.error (SmtpErr.unexpectedCode resp.code resp.msg), st1)

/-- conn.execCmd (src/smtp.go:47): write the command line, then read the
response expecting the given code. -/
def execCmd (st : TState) (expectCode : Nat) (cmd : Command) :
    Except SmtpErr (Nat × String) × TState :=
  readResponse { st with trace := st.trace ++ [cmd] } expectCode

/-- conn.close (src/smtp.go:40): close the framing layer, then the raw socket. -/
def TState.close (st : TState) : TState :=
  { st with textConnClosed := true, netConnClosed := true }

/-- Client (src/smtp.go:20).  `ext` is the capability map; none models the nil
Go map a fresh client starts with. -/
structure Client where
  remoteHost : String
  localHost : String
  ext : Option (List (String × String))
  auth : List String
  deriving DecidableEq

/-- NewClient (src/smtp.go:28). -/
def NewClient (host : String) : Client :=
  { remoteHost := host, localHost := "localhost", ext := none, auth := [] }

/-- Indexing the possibly-nil capability map, as Go c.ext[k] with its ok flag. -/
def extLookup (ext : Option (List (String × String))) (k : String) : Option String :=
  match ext with
  | none => none
  | some m => mapLookup m k

/-- Client.hello (src/smtp.go:122): validate the local identifier, try EHLO,
fall back to HELO on its failure; on EHLO success parse the capabilities,
record the AUTH mechanisms when advertised, and adopt the identifier.  The
HELO fallback path leaves the client state untouched. -/
def Client.hello (c : Client) (st : TState) (localHost : String) :
    Except SmtpErr Unit × Client × TState :=
  match validateLine localHost with
  | some e => (Except.error e, c, st)
  | none =>
    match execCmd st 250 (Command.ehlo localHost) with
    | (Except.error _, st1) =>
      match execCmd st1 250 (Command.helo localHost) with
      | (Except.error e, st2) => (Except.error e, c, st2)
      | (Except.ok _, st2) => (Except.ok (), c, st2)
    | (Except.ok (_, msg), st1) =>
      let ext := parseExt msg
      let c1 :=
        match mapLookup ext "AUTH" with
        | some a => { c with auth := goSplit a ' ' }
        | none => c
      (Except.ok (), { c1 with ext := some ext, localHost := localHost }, st1)

/-- The BODY=8BITMIME decision of Client.mail (src/smtp.go:160-165): taken
exactly when the capability map is non-nil and contains the 8BITMIME key. -/
def mailEightBit (c : Client) : Bool :=
  match c.ext with
  | some ext => (mapLookup ext "8BITMIME").isSome
  | none => false

/-- Client.mail (src/smtp.go:159): MAIL FROM, appending BODY=8BITMIME when the
capability map is non-nil and contains the 8BITMIME key. -/
def Client.mail (c : Client) (st : TState) (fromAddr : String) :
    Except SmtpErr Unit × TState :=
  match execCmd st 250 (Command.mailFrom fromAddr (mailEightBit c)) with
  | (Except.error e, st1) => (Except.error e, st1)
  | (Except.ok _, st1) => (Except.ok (), st1)

/-- Client.startTLS (src/smtp.go:170): STARTTLS expecting 220, wrap the socket
with TLS under the given configuration, rebuild the textproto framing on the
new stream, then re-run hello with the stored local identifier. -/
def Client.startTLS (c : Client) (st : TState) (config : TLSConfig) :
    Except SmtpErr Unit × Client × TState :=
  match execCmd st 220 Command.starttls with
  | (Except.error e, st1) => (Except.error e, c, st1)
  | (Except.ok _, st1) =>
    Client.hello c { st1 with tlsConfig := some config } c.localHost

/-- Header (src/smtp.go:296), map of keys to ordered value lists. -/
abbrev Header := List (String × List String)

/-- headerNewlineToSpace (src/smtp.go:298): every LF or CR becomes one space. -/
def headerNewlineToSpace (s : String) : String :=
  String.mk (s.data.map (fun ch => if ch = '\n' ∨ ch = '\r' then ' ' else ch))

/-- textproto's notion of ASCII space: space, tab, LF, CR. -/
def isASCIISpace (ch : Char) : Bool :=
  ch == ' ' || ch == '\t' || ch == '\n' || ch == '\r'

/-- textproto.TrimString: strip leading and trailing ASCII space. -/
def trimString (s : String) : String :=
  String.mk (((s.data.dropWhile isASCIISpace).reverse.dropWhile isASCIISpace).reverse)

/-- defaultExcludeHeaders (src/smtp.go:299): the reserved keys. -/
def defaultExcludeHeaders (k : String) : Bool :=
  k == "From" || k == "To" || k == "Subject"

/-- writeHeader (src/smtp.go:355): the wire form of one header line. -/
def writeHeader (key value : String) : String :=
  key ++ ": " ++ value ++ "\r\n"

/-- Loop of Request.Write over the addresses sharing one key, threading the
output accumulator exactly as the successive Fprintf calls do. -/
def writeHeaderList (acc : String) (key : String) : List String → String
  | [] => acc
  | v :: rest => writeHeaderList (acc ++ writeHeader key v) key rest

/-- Header.exclude (src/smtp.go:347): delete every entry whose key the
predicate selects.  In Go this mutates the map in place. -/
def Header.exclude (h : Header) (excl : String → Bool) : Header :=
  h.filter (fun p => !excl p.1)

/-- Inner loop of Header.WriteSubset over one key's values: replace CR and LF
by spaces, trim, then write the line. -/
def writeValues (acc : String) (key : String) : List String → String
  | [] => acc
  | v :: rest =>
    writeValues (acc ++ writeHeader key (trimString (headerNewlineToSpace v))) key rest

/-- Outer loop of Header.WriteSubset over the entries, plus the final blank
line that Go emits after the loop. -/
def writeSubsetAux (acc : String) : Header → String
  | [] => acc ++ "\r\n"
  | (k, vs) :: rest => writeSubsetAux (writeValues acc k vs) rest

/-- Header.WriteSubset (src/smtp.go:332): first mutate the map via exclude,
then write every remaining entry followed by a blank line.  Returns the output
and the map as mutated. -/
def Header.WriteSubset (h : Header) (excl : String → Bool) (acc : String) :
    String × Header :=
  let h1 := Header.exclude h excl
  (writeSubsetAux acc h1, h1)

/-- Request (src/smtp.go:238), with the body stream as the byte string it
yields when copied to exhaustion. -/
structure Request where
  From : String
  To : List String
  Cc : List String
  Bcc : List String
  Subject : String
  Header : Header
  Body : String
  StartTLS : Bool
  TLSConfig : Option TLSConfig
  deriving DecidableEq

/-- Request.Write (src/smtp.go:269): the From header, one To header per
recipient, one Cc header per cc address, the Subject header, the remaining
custom headers with the blank line, then the body copied verbatim.  Returns
the bytes written and the request with its header map as mutated. -/
def Request.Write (r : Request) : String × Request :=
  let acc := writeHeader "From" r.From
  let acc := writeHeaderList acc "To" r.To
  let acc := writeHeaderList acc "Cc" r.Cc
  let acc := acc ++ writeHeader "Subject" r.Subject
  match Header.WriteSubset r.Header defaultExcludeHeaders acc with
  | (acc1, h1) => (acc1 ++ r.Body, { r with Header := h1 })

/-- RCPT TO loop of Client.Send (src/smtp.go:205-214): one command per
address, first failure aborts. -/
def rcptLoop : TState → List String → Except SmtpErr Unit × TState
  | st, [] => (Except.ok (), st)
  | st, addr :: rest =>
    match execCmd st 25 (Command.rcptTo addr) with
    | (Except.error e, st1) => (Except.error e, st1)
    | (Except.ok _, st1) => rcptLoop st1 rest

/-- STARTTLS block of Client.Send (src/smtp.go:191-199): runs only when the
capability map has the STARTTLS key and the request opted in; a nil request
configuration is replaced by the default naming c.remoteHost. -/
def startTLSPhase (c : Client) (r : Request) (st : TState) :
    Except SmtpErr Unit × Client × TState :=
  if (extLookup c.ext "STARTTLS").isSome && r.StartTLS then
    let tlsCfg :=
      match r.TLSConfig with
      | some cfg => cfg
      | none => { ServerName := c.remoteHost }
    Client.startTLS c st tlsCfg
  else (Except.ok (), c, st)

/-- DATA block of Client.Send (src/smtp.go:216-229): DATA expecting 354, write
the serialized request through the dot-writer, close it, then read the 250
acknowledgement. -/
def dataPhase (r : Request) (st : TState) : Except SmtpErr Unit × Request × TState :=
  match execCmd st 354 Command.data with
  | (Except.error e, st1) => (Except.error e, r, st1)
  | (Except.ok _, st1) =>
    match Request.Write r with
    | (payload, r1) =>
      match readResponse { st1 with dataPayload := some payload } 250 with
      | (Except.error e, st2) => (Except.error e, r1, st2)
      | (Except.ok _, st2) => (Except.ok (), r1, st2)

/-- Client.Send after a successful dial (src/smtp.go:187-234): hello, the
optional STARTTLS block, MAIL, the RCPT loops over To and then Bcc, the DATA
block, then QUIT. -/
def sendBody (c : Client) (r : Request) (st : TState) :
    Except SmtpErr Unit × Client × Request × TState :=
  match Client.hello c st c.localHost with
  | (Except.error e, c1, st1) => (Except.error e, c1, r, st1)
  | (Except.ok _, c1, st1) =>
    match startTLSPhase c1 r st1 with
    | (Except.error e, c2, st2) => (Except.error e, c2, r, st2)
    | (Except.ok _, c2, st2) =>
      match Client.mail c2 st2 r.From with
      | (Except.error e, st3) => (Except.error e, c2, r, st3)
      | (Except.ok _, st3) =>
        match rcptLoop st3 r.To with
        | (Except.error e, st4) => (Except.error e, c2, r, st4)
        | (Except.ok _, st4) =>
          match rcptLoop st4 r.Bcc with
          | (Except.error e, st5) => (Except.error e, c2, r, st5)
          | (Except.ok _, st5) =>
            match dataPhase r st5 with
            | (Except.error e, r1, st6) => (Except.error e, c2, r1, st6)
            | (Except.ok _, r1, st6) =>
              match execCmd st6 221 Command.quit with
              | (Except.error e, st7) => (Except.error e, c2, r1, st7)
              | (Except.ok _, st7) => (Except.ok (), c2, r1, st7)

/-- Client.Send (src/smtp.go:180).  A dial failure returns before any
transport exists; once dial succeeds, the deferred conn.close runs on the
transport on every return path, which the wrapper applies to the final state. -/
def Client.Send (c : Client) (r : Request) (dialResult : Except SmtpErr (List Response)) :
    Except SmtpErr Unit × Client × Request × Option TState :=
  match dialResult with
  | Except.error e => (Except.error e, c, r, none)
  | Except.ok script =>
    match sendBody c r (initConn script) with
    | (res, c1, r1, st) => (res, c1, r1, some st.close)

/-- Commands a Send execution wrote (empty when dial failed). -/
def sendTrace (out : Except SmtpErr Unit × Client × Request × Option TState) :
    List Command :=
  match out.2.2.2 with
  | none => []
  | some st => st.trace

/-- Capability state of the client right after the greeting step of a Send
over the given script. -/
def negotiatedExt (c : Client) (script : List Response) :
    Option (List (String × String)) :=
  ((Client.hello c (initConn script) c.localHost).2.1).ext

/-- Concatenation of a list of strings, used to state serialization shapes. -/
def strJoin : List String → String
  | [] => ""
  | s :: rest => s ++ strJoin rest

/-- Stated from the spec's words (C8): the serialized message is exactly the
From header, one To header per recipient in order, one Cc header per cc
address in order, the Subject header, the caller's custom headers with the
reserved keys excluded (values sanitized as the source does), a blank line,
then the body bytes verbatim. -/
def serializationPerSpec (r : Request) : String :=
  writeHeader "From" r.From
    ++ strJoin (r.To.map (fun a => writeHeader "To" a))
    ++ strJoin (r.Cc.map (fun a => writeHeader "Cc" a))
    ++ writeHeader "Subject" r.Subject
    ++ strJoin ((Header.exclude r.Header defaultExcludeHeaders).map
        (fun p => strJoin (p.2.map
          (fun v => writeHeader p.1 (trimString (headerNewlineToSpace v))))))
    ++ "\r\n"
    ++ r.Body

/-- Lookup of one header key, as Go indexing of the Header map. -/
def headerLookup (h : Header) (k : String) : Option (List String) :=
  (h.find? (fun p => p.1 == k)).map (fun p => p.2)

/-- String append is associative. -/
theorem strAppend_assoc (a b c : String) : a ++ b ++ c = a ++ (b ++ c) := by
  rcases a with ⟨la⟩; rcases b with ⟨lb⟩; rcases c with ⟨lc⟩
  show String.mk (la ++ lb ++ lc) = String.mk (la ++ (lb ++ lc))
  rw [List.append_assoc]

/-- The empty string is a right identity for append. -/
theorem strAppend_empty (a : String) : a ++ "" = a := by
  rcases a with ⟨la⟩
  show String.mk (la ++ []) = String.mk la
  rw [List.append_nil]

/-- The threaded To/Cc loop equals the accumulator followed by the joined
header lines, one per address, in order. -/
theorem writeHeaderList_eq (key : String) (l : List String) (acc : String) :
    writeHeaderList acc key l = acc ++ strJoin (l.map (fun v => writeHeader key v)) := by
  induction l generalizing acc with
  | nil => simp [writeHeaderList, strJoin, strAppend_empty]
  | cons v rest ih =>
    simp only [writeHeaderList, List.map_cons, strJoin, ih, strAppend_assoc]

/-- The threaded per-key value loop equals the accumulator followed by the
joined sanitized header lines. -/
theorem writeValues_eq (key : String) (l : List String) (acc : String) :
    writeValues acc key l =
      acc ++ strJoin (l.map (fun v => writeHeader key (trimString (headerNewlineToSpace v)))) := by
  induction l generalizing acc with
  | nil => simp [writeValues, strJoin, strAppend_empty]
  | cons v rest ih =>
    simp only [writeValues, List.map_cons, strJoin, ih, strAppend_assoc]

/-- The threaded header-map loop equals the accumulator, the joined entries,
and the final blank line. -/
theorem writeSubsetAux_eq (h : Header) (acc : String) :
    writeSubsetAux acc h =
      acc ++ (strJoin (h.map (fun p => strJoin (p.2.map
        (fun v => writeHeader p.1 (trimString (headerNewlineToSpace v)))))) ++ "\r\n") := by
  induction h generalizing acc with
  | nil => simp [writeSubsetAux, strJoin, strAppend_empty]
  | cons p rest ih =>
    obtain ⟨k, vs⟩ := p
    simp only [writeSubsetAux, List.map_cons, strJoin, ih, writeValues_eq, strAppend_assoc]

/-- C8: for every request, the bytes Request.Write produces are exactly the
From header, one To header per recipient in order, one Cc header per cc
address in order, the Subject header, the caller's custom headers with the
reserved keys excluded, a blank line, then the body bytes verbatim. -/
theorem requestWriteSerialization (r : Request) :
    (Request.Write r).1 = serializationPerSpec r := by
  unfold Request.Write Header.WriteSubset serializationPerSpec
  simp only [writeHeaderList_eq, writeSubsetAux_eq, strAppend_assoc]

/-- find? cannot locate an excluded key after Header.exclude ran. -/
theorem find_exclude_none (h : Header) (k : String)
    (hk : defaultExcludeHeaders k = true) :
    List.find? (fun p => p.1 == k) (Header.exclude h defaultExcludeHeaders) = none := by
  rw [List.find?_eq_none]
  intro p hp hbeq
  unfold Header.exclude at hp
  rw [List.mem_filter] at hp
  have hpk : p.1 = k := by simpa using hbeq
  rw [hpk, hk] at hp
  simp at hp

/-- C10: Request.Write deletes every entry keyed exactly From, To, or Subject
from the request's header map itself, so after it returns those keys are
absent from the caller-visible Header. -/
theorem requestWriteDeletesReserved (r : Request) (k : String)
    (hk : k = "From" ∨ k = "To" ∨ k = "Subject") :
    headerLookup ((Request.Write r).2).Header k = none := by
  have hex : defaultExcludeHeaders k = true := by
    rcases hk with rfl | rfl | rfl <;> rfl
  have hH : ((Request.Write r).2).Header = Header.exclude r.Header defaultExcludeHeaders := by
    unfold Request.Write Header.WriteSubset
    rfl
  unfold headerLookup
  rw [hH, find_exclude_none r.Header k hex]
  rfl

/-- Witness for C10 at a concrete request carrying a caller-supplied From key. -/
theorem requestWriteDeletesReserved_witness :
    headerLookup ((Request.Write
      { From := "a@x.com", To := ["b@y.com"], Cc := [], Bcc := [], Subject := "hi",
        Header := [("From", ["spoof@x.com"]), ("X-Note", ["v"])], Body := "",
        StartTLS := false, TLSConfig := none }).2).Header "From" = none :=
  requestWriteDeletesReserved _ "From" (Or.inl rfl)

/-- readResponse never changes the command trace. -/
theorem readResponse_trace (st : TState) (e : Nat) :
    ((readResponse st e).2).trace = st.trace := by
  simp only [readResponse]
  split
  · rfl
  · split <;> rfl

/-- readResponse never changes the installed TLS configuration. -/
theorem readResponse_tls (st : TState) (e : Nat) :
    ((readResponse st e).2).tlsConfig = st.tlsConfig := by
  simp only [readResponse]
  split
  · rfl
  · split <;> rfl

/-- execCmd appends exactly its command to the trace. -/
theorem execCmd_trace (st : TState) (e : Nat) (cmd : Command) :
    ((execCmd st e cmd).2).trace = st.trace ++ [cmd] := by
  unfold execCmd
  rw [readResponse_trace]

/-- execCmd never changes the installed TLS configuration. -/
theorem execCmd_tls (st : TState) (e : Nat) (cmd : Command) :
    ((execCmd st e cmd).2).tlsConfig = st.tlsConfig := by
  unfold execCmd
  rw [readResponse_tls]

/-- Client.hello only ever writes EHLO and HELO: it cannot put a STARTTLS
command into the trace, and it leaves the TLS configuration alone. -/
theorem hello_frame (c : Client) (st : TState) (lh : String) :
    (Command.starttls ∈ ((Client.hello c st lh).2.2).trace →
      Command.starttls ∈ st.trace) ∧
    ((Client.hello c st lh).2.2).tlsConfig = st.tlsConfig := by
  unfold Client.hello
  cases hv : validateLine lh with
  | some e => exact ⟨fun hx => hx, rfl⟩
  | none =>
    rcases hE : execCmd st 250 (Command.ehlo lh) with ⟨res1, st1⟩
    have ht1 : st1.trace = st.trace ++ [Command.ehlo lh] := by
      have h0 := execCmd_trace st 250 (Command.ehlo lh); rw [hE] at h0; exact h0
    have hl1 : st1.tlsConfig = st.tlsConfig := by
      have h0 := execCmd_tls st 250 (Command.ehlo lh); rw [hE] at h0; exact h0
    cases res1 with
    | ok v =>
      obtain ⟨code, msg⟩ := v
      dsimp only
      refine ⟨fun hx => ?_, hl1⟩
      rw [ht1] at hx
      rcases List.mem_append.1 hx with hx | hx
      · exact hx
      · simp at hx
    | error e1 =>
      dsimp only
      rcases hH : execCmd st1 250 (Command.helo lh) with ⟨res2, st2⟩
      have ht2 : st2.trace = st1.trace ++ [Command.helo lh] := by
        have h0 := execCmd_trace st1 250 (Command.helo lh); rw [hH] at h0; exact h0
      have hl2 : st2.tlsConfig = st1.tlsConfig := by
        have h0 := execCmd_tls st1 250 (Command.helo lh); rw [hH] at h0; exact h0
      have hmem : Command.starttls ∈ st2.trace → Command.starttls ∈ st.trace := by
        intro hx
        rw [ht2, ht1] at hx
        rcases List.mem_append.1 hx with hx | hx
        · rcases List.mem_append.1 hx with hx | hx
          · exact hx
          · simp at hx
        · simp at hx
      cases res2 with
      | ok v2 => exact ⟨hmem, by rw [hl2, hl1]⟩
      | error e2 => exact ⟨hmem, by rw [hl2, hl1]⟩

/-- Client.mail writes exactly one MAIL FROM command carrying the 8BITMIME
decision, so no STARTTLS enters the trace and the TLS configuration is kept. -/
theorem mail_frame (c : Client) (st : TState) (a : String) :
    (Command.starttls ∈ ((Client.mail c st a).2).trace →
      Command.starttls ∈ st.trace) ∧
    ((Client.mail c st a).2).tlsConfig = st.tlsConfig := by
  unfold Client.mail
  rcases hE : execCmd st 250 (Command.mailFrom a (mailEightBit c)) with ⟨res1, st1⟩
  have ht1 := execCmd_trace st 250 (Command.mailFrom a (mailEightBit c))
  have hl1 := execCmd_tls st 250 (Command.mailFrom a (mailEightBit c))
  rw [hE] at ht1 hl1
  have hmem : Command.starttls ∈ st1.trace → Command.starttls ∈ st.trace := by
    intro hx
    rw [ht1] at hx
    rcases List.mem_append.1 hx with hx | hx
    · exact hx
    · simp at hx
  cases res1 with
  | ok v => exact ⟨hmem, hl1⟩
  | error e => exact ⟨hmem, hl1⟩

/-- The RCPT loop only writes RCPT TO commands: no STARTTLS enters the trace
and the TLS configuration is kept. -/
theorem rcptLoop_frame (l : List String) (st : TState) :
    (Command.starttls ∈ ((rcptLoop st l).2).trace → Command.starttls ∈ st.trace) ∧
    ((rcptLoop st l).2).tlsConfig = st.tlsConfig := by
  induction l generalizing st with
  | nil => exact ⟨fun hx => hx, rfl⟩
  | cons a rest ih =>
    unfold rcptLoop
    rcases hE : execCmd st 25 (Command.rcptTo a) with ⟨res1, st1⟩
    have ht1 := execCmd_trace st 25 (Command.rcptTo a)
    have hl1 := execCmd_tls st 25 (Command.rcptTo a)
    rw [hE] at ht1 hl1
    have hmem : Command.starttls ∈ st1.trace → Command.starttls ∈ st.trace := by
      intro hx
      rw [ht1] at hx
      rcases List.mem_append.1 hx with hx | hx
      · exact hx
      · simp at hx
    cases res1 with
    | error e => exact ⟨hmem, hl1⟩
    | ok v =>
      dsimp only
      refine ⟨fun hx => hmem ((ih st1).1 hx), ?_⟩
      rw [(ih st1).2, hl1]

/-- The DATA block writes only the DATA command and the payload: no STARTTLS
enters the trace and the TLS configuration is kept. -/
theorem dataPhase_frame (r : Request) (st : TState) :
    (Command.starttls ∈ ((dataPhase r st).2.2).trace → Command.starttls ∈ st.trace) ∧
    ((dataPhase r st).2.2).tlsConfig = st.tlsConfig := by
  unfold dataPhase
  rcases hE : execCmd st 354 Command.data with ⟨res1, st1⟩
  have ht1 := execCmd_trace st 354 Command.data
  have hl1 := execCmd_tls st 354 Command.data
  rw [hE] at ht1 hl1
  have hmem : Command.starttls ∈ st1.trace → Command.starttls ∈ st.trace := by
    intro hx
    rw [ht1] at hx
    rcases List.mem_append.1 hx with hx | hx
    · exact hx
    · simp at hx
  cases res1 with
  | error e => exact ⟨hmem, hl1⟩
  | ok v =>
    dsimp only
    rcases hW : Request.Write r with ⟨payload, r1⟩
    dsimp only
    rcases hR : readResponse { st1 with dataPayload := some payload } 250 with ⟨res2, st2⟩
    have ht2 := readResponse_trace { st1 with dataPayload := some payload } 250
    have hl2 := readResponse_tls { st1 with dataPayload := some payload } 250
    rw [hR] at ht2 hl2
    have hmem2 : Command.starttls ∈ st2.trace → Command.starttls ∈ st.trace := by
      intro hx
      rw [ht2] at hx
      exact hmem hx
    have hl2' : st2.tlsConfig = st.tlsConfig := by
      rw [hl2]; exact hl1
    cases res2 with
    | error e => exact ⟨hmem2, hl2'⟩
    | ok v2 => exact ⟨hmem2, hl2'⟩

/-- sendBody, when the greeting left no STARTTLS capability, never writes a
STARTTLS command and never installs a TLS configuration. -/
theorem sendBody_frame (c : Client) (r : Request) (st : TState)
    (h : extLookup ((Client.hello c st c.localHost).2.1).ext "STARTTLS" = none) :
    (Command.starttls ∈ ((sendBody c r st).2.2.2).trace →
      Command.starttls ∈ st.trace) ∧
    ((sendBody c r st).2.2.2).tlsConfig = st.tlsConfig := by
  rcases hH : Client.hello c st c.localHost with ⟨res1, c1, st1⟩
  have hf := hello_frame c st c.localHost
  rw [hH] at hf h
  have hf1 : (Command.starttls ∈ st1.trace → Command.starttls ∈ st.trace) ∧
      st1.tlsConfig = st.tlsConfig := hf
  have h1 : extLookup c1.ext "STARTTLS" = none := h
  unfold sendBody
  rw [hH]
  cases res1 with
  | error e => exact hf1
  | ok u =>
    dsimp only
    have hP : startTLSPhase c1 r st1 = (Except.ok (), c1, st1) := by
      unfold startTLSPhase
      rw [h1]
      simp
    rw [hP]
    dsimp only
    rcases hM : Client.mail c1 st1 r.From with ⟨res2, st2⟩
    have hf2 := mail_frame c1 st1 r.From
    rw [hM] at hf2
    cases res2 with
    | error e => exact ⟨fun hx => hf1.1 (hf2.1 hx), by rw [hf2.2, hf1.2]⟩
    | ok u2 =>
      dsimp only
      rcases hR : rcptLoop st2 r.To with ⟨res3, st3⟩
      have hf3 := rcptLoop_frame r.To st2
      rw [hR] at hf3
      cases res3 with
      | error e => exact ⟨fun hx => hf1.1 (hf2.1 (hf3.1 hx)), by rw [hf3.2, hf2.2, hf1.2]⟩
      | ok u3 =>
        dsimp only
        rcases hB : rcptLoop st3 r.Bcc with ⟨res4, st4⟩
        have hf4 := rcptLoop_frame r.Bcc st3
        rw [hB] at hf4
        cases res4 with
        | error e =>
          exact ⟨fun hx => hf1.1 (hf2.1 (hf3.1 (hf4.1 hx))),
            by rw [hf4.2, hf3.2, hf2.2, hf1.2]⟩
        | ok u4 =>
          dsimp only
          rcases hD : dataPhase r st4 with ⟨res5, r1, st5⟩
          have hf5 := dataPhase_frame r st4
          rw [hD] at hf5
          have hf5' : (Command.starttls ∈ st5.trace → Command.starttls ∈ st4.trace) ∧
              st5.tlsConfig = st4.tlsConfig := hf5
          cases res5 with
          | error e =>
            exact ⟨fun hx => hf1.1 (hf2.1 (hf3.1 (hf4.1 (hf5'.1 hx)))),
              by rw [hf5'.2, hf4.2, hf3.2, hf2.2, hf1.2]⟩
          | ok u5 =>
            dsimp only
            rcases hQ : execCmd st5 221 Command.quit with ⟨res6, st6⟩
            have ht6 := execCmd_trace st5 221 Command.quit
            have hl6 := execCmd_tls st5 221 Command.quit
            rw [hQ] at ht6 hl6
            have hmem6 : Command.starttls ∈ st6.trace → Command.starttls ∈ st5.trace := by
              intro hx
              rw [ht6] at hx
              rcases List.mem_append.1 hx with hx | hx
              · exact hx
              · simp at hx
            cases res6 with
            | error e =>
              exact ⟨fun hx => hf1.1 (hf2.1 (hf3.1 (hf4.1 (hf5'.1 (hmem6 hx))))),
                by rw [hl6, hf5'.2, hf4.2, hf3.2, hf2.2, hf1.2]⟩
            | ok u6 =>
              exact ⟨fun hx => hf1.1 (hf2.1 (hf3.1 (hf4.1 (hf5'.1 (hmem6 hx))))),
                by rw [hl6, hf5'.2, hf4.2, hf3.2, hf2.2, hf1.2]⟩

/-- C5: for every session whose negotiated capability map lacks the STARTTLS
key, Send never writes a STARTTLS command to the transport, whatever the
request's StartTLS flag says, and the transaction stays on the existing
plaintext connection: no TLS configuration is ever installed. -/
theorem sendSkipsStartTLSWhenUnadvertised (c : Client) (r : Request)
    (script : List Response)
    (h : extLookup (negotiatedExt c script) "STARTTLS" = none) :
    Command.starttls ∉ sendTrace (Client.Send c r (Except.ok script)) ∧
    (∀ st, (Client.Send c r (Except.ok script)).2.2.2 = some st →
      st.tlsConfig = none) := by
  unfold negotiatedExt at h
  have hb := sendBody_frame c r (initConn script) h
  rcases hS : sendBody c r (initConn script) with ⟨res, c1, r1, stB⟩
  rw [hS] at hb
  have hb1 : (Command.starttls ∈ stB.trace → Command.starttls ∈ (initConn script).trace) ∧
      stB.tlsConfig = (initConn script).tlsConfig := hb
  have hsend : Client.Send c r (Except.ok script) = (res, c1, r1, some stB.close) := by
    show (match sendBody c r (initConn script) with
      | (res, c1, r1, st) => (res, c1, r1, some st.close)) = (res, c1, r1, some stB.close)
    rw [hS]
  constructor
  · intro hx
    rw [hsend] at hx
    have hx2 : Command.starttls ∈ stB.trace := hx
    have hx3 := hb1.1 hx2
    simp [initConn] at hx3
  · intro st hst
    rw [hsend] at hst
    have hst2 : stB.close = st := Option.some.inj hst
    rw [← hst2]
    show stB.tlsConfig = none
    rw [hb1.2]
    rfl

/-- Witness for C5: a concrete Send whose EHLO response advertises nothing;
the request asks for STARTTLS, yet no STARTTLS command is written. -/
theorem sendSkipsStartTLSWhenUnadvertised_witness :
    extLookup (negotiatedExt (NewClient "mail.example.com:25")
      [⟨250, "mail.example.com"⟩, ⟨250, "ok"⟩, ⟨250, "ok"⟩, ⟨354, "go"⟩,
       ⟨250, "ok"⟩, ⟨221, "bye"⟩]) "STARTTLS" = none ∧
    Command.starttls ∉ sendTrace (Client.Send (NewClient "mail.example.com:25")
      { From := "a@x.com", To := ["b@y.com"], Cc := [], Bcc := [], Subject := "hi",
        Header := [], Body := "", StartTLS := true, TLSConfig := none }
      (Except.ok [⟨250, "mail.example.com"⟩, ⟨250, "ok"⟩, ⟨250, "ok"⟩, ⟨354, "go"⟩,
       ⟨250, "ok"⟩, ⟨221, "bye"⟩])) :=
  ⟨rfl, (sendSkipsStartTLSWhenUnadvertised (NewClient "mail.example.com:25")
    { From := "a@x.com", To := ["b@y.com"], Cc := [], Bcc := [], Subject := "hi",
      Header := [], Body := "", StartTLS := true, TLSConfig := none }
    [⟨250, "mail.example.com"⟩, ⟨250, "ok"⟩, ⟨250, "ok"⟩, ⟨354, "go"⟩,
     ⟨250, "ok"⟩, ⟨221, "bye"⟩] rfl).1⟩

/-- C3: every Send call whose dial succeeded runs the close step before
returning, on every path including every failure path: the returned transport
state has both the framing layer and the raw socket closed. -/
theorem sendClosesTransport (c : Client) (r : Request)
    (dialResult : Except SmtpErr (List Response)) (st : TState)
    (h : (Client.Send c r dialResult).2.2.2 = some st) :
    st.textConnClosed = true ∧ st.netConnClosed = true := by
  cases dialResult with
  | error e => simp [Client.Send] at h
  | ok script =>
    rcases hS : sendBody c r (initConn script) with ⟨res, c1, r1, stB⟩
    have hsend : Client.Send c r (Except.ok script) = (res, c1, r1, some stB.close) := by
      show (match sendBody c r (initConn script) with
        | (res, c1, r1, st) => (res, c1, r1, some st.close)) = (res, c1, r1, some stB.close)
      rw [hS]
    rw [hsend] at h
    have h2 : stB.close = st := Option.some.inj h
    rw [← h2]
    exact ⟨rfl, rfl⟩

/-- Witness for C3: a concrete Send that fails during the greeting (empty
response script) still ends with both transport layers closed. -/
theorem sendClosesTransport_witness :
    (Client.Send (NewClient "mail.example.com:25")
      { From := "a@x.com", To := [], Cc := [], Bcc := [], Subject := "", Header := [],
        Body := "", StartTLS := false, TLSConfig := none }
      (Except.ok [])).2.2.2 = some
      { serverScript := [], trace := [Command.ehlo "localhost", Command.helo "localhost"],
        dataPayload := none, tlsConfig := none,
        textConnClosed := true, netConnClosed := true } ∧
    ({ serverScript := [], trace := [Command.ehlo "localhost", Command.helo "localhost"],
       dataPayload := none, tlsConfig := none,
       textConnClosed := true, netConnClosed := true } : TState).textConnClosed = true ∧
    ({ serverScript := [], trace := [Command.ehlo "localhost", Command.helo "localhost"],
       dataPayload := none, tlsConfig := none,
       textConnClosed := true, netConnClosed := true } : TState).netConnClosed = true :=
  ⟨rfl,
    sendClosesTransport (NewClient "mail.example.com:25")
      { From := "a@x.com", To := [], Cc := [], Bcc := [], Subject := "", Header := [],
        Body := "", StartTLS := false, TLSConfig := none }
      (Except.ok [])
      { serverScript := [], trace := [Command.ehlo "localhost", Command.helo "localhost"],
        dataPayload := none, tlsConfig := none,
        textConnClosed := true, netConnClosed := true } rfl⟩

/-- C9: for every MX lookup whose first attempt fails with a not-found
resolver error (IsNotFound set and neither temporary nor timeout), resolution
immediately yields the single fallback record carrying the original host, no
retry delay occurs, and the connect-target list is exactly the original host
joined with the original port. -/
theorem notFoundFallsBackToHost (host port : String) (e : DNSError)
    (results : Nat → LookupResult) (fuel : Nat)
    (h1 : e.isNotFound = true) (h2 : e.isTimeout = false) (h3 : e.isTemporary = false)
    (h4 : results 0 = LookupResult.err (LookupErr.dns e)) :
    lookupLoop host results (fuel + 1) 0 0 [] = ResolveOutcome.ok [⟨host, 0⟩] [] ∧
    connectTargets [⟨host, 0⟩] port = [host ++ ":" ++ port] := by
  constructor
  · show (match results 0 with
      | LookupResult.ok recs => ResolveOutcome.ok recs []
      | LookupResult.err LookupErr.nonDNS => ResolveOutcome.err LookupErr.nonDNS []
      | LookupResult.err (LookupErr.dns de) =>
        if de.temporary then
          let d1 := if (0 : Nat) = 0 then 5 else 0 * 2
          let d2 := if d1 > 1000 then 1000 else d1
          lookupLoop host results fuel (0 + 1) d2 ([] ++ [d2])
        else if de.timeout then ResolveOutcome.err (LookupErr.dns de) []
        else if de.isNotFound then ResolveOutcome.ok [⟨host, 0⟩] []
        else lookupLoop host results fuel (0 + 1) 0 []) = ResolveOutcome.ok [⟨host, 0⟩] []
    rw [h4]
    simp [DNSError.temporary, DNSError.timeout, h1, h2, h3]
  · simp [connectTargets]

/-- Witness for C9 at a concrete host, port, and not-found lookup script. -/
theorem notFoundFallsBackToHost_witness :
    lookupLoop "mail.example.com"
      (fun _ => LookupResult.err (LookupErr.dns ⟨false, false, true⟩)) 1 0 0 []
      = ResolveOutcome.ok [⟨"mail.example.com", 0⟩] [] ∧
    connectTargets [⟨"mail.example.com", 0⟩] "25" = ["mail.example.com:25"] :=
  notFoundFallsBackToHost "mail.example.com" "25" ⟨false, false, true⟩
    (fun _ => LookupResult.err (LookupErr.dns ⟨false, false, true⟩)) 0
    rfl rfl rfl rfl

/-- C4 (code_bug evidence): the resolver error classification is not the one
the claim states.  First, a pure timeout DNS error (IsTimeout set) satisfies
Go's Temporary(), so the loop sleeps 5 ms and retries instead of returning the
error immediately: with the lookup succeeding on the second attempt, the loop
returns those records after one 5 ms backoff sleep.  Second, a DNSError with
no flags set matches no branch of the classification, so the loop never
terminates: for every fuel bound it just retries without sleeping. -/
theorem dialResolveMisclassifiesErrors :
    (lookupLoop "example.com"
      (fun attempt => if attempt = 0
        then LookupResult.err (LookupErr.dns ⟨true, false, false⟩)
        else LookupResult.ok [⟨"mx.example.com", 10⟩]) 2 0 0 [] =
      ResolveOutcome.ok [⟨"mx.example.com", 10⟩] [5]) ∧
    (∀ fuel attempt tempDelay delays,
      lookupLoop "example.com"
        (fun _ => LookupResult.err (LookupErr.dns ⟨false, false, false⟩))
        fuel attempt tempDelay delays = ResolveOutcome.diverge) := by
  constructor
  · rfl
  · intro fuel
    induction fuel with
    | zero => intro _ _ _; rfl
    | succ n ih =>
      intro attempt tempDelay delays
      exact ih (attempt + 1) tempDelay delays

/-- C1 (code_bug evidence): on the claim's own input the two extension lines
8BITMIME and AUTH PLAIN LOGIN are both preserved and the stored AUTH
mechanism list is PLAIN, LOGIN; but parseExt breaks out of its loop at the
first parameterized line, so with the same two lines in the opposite order
the 8BITMIME line is silently dropped, refuting preservation of every
extension line after the first. -/
theorem parseExtDropsLaterExtensions :
    (parseExt "smtp.example.com\n8BITMIME\nAUTH PLAIN LOGIN" =
      [("8BITMIME", ""), ("AUTH", "PLAIN LOGIN")]) ∧
    (((Client.hello (NewClient "mail.example.com:25")
        (initConn [⟨250, "smtp.example.com\n8BITMIME\nAUTH PLAIN LOGIN"⟩])
        "localhost").2.1).auth = ["PLAIN", "LOGIN"]) ∧
    (((Client.hello (NewClient "mail.example.com:25")
        (initConn [⟨250, "smtp.example.com\n8BITMIME\nAUTH PLAIN LOGIN"⟩])
        "localhost").2.1).ext =
      some [("8BITMIME", ""), ("AUTH", "PLAIN LOGIN")]) ∧
    (parseExt "smtp.example.com\nAUTH PLAIN LOGIN\n8BITMIME" =
      [("AUTH", "PLAIN LOGIN")]) ∧
    (mapLookup (parseExt "smtp.example.com\nAUTH PLAIN LOGIN\n8BITMIME") "8BITMIME" =
      none) :=
  ⟨rfl, rfl, rfl, rfl, rfl⟩

/-- C2 (code_bug evidence): recipients are never validated.  A Send whose
recipient contains CR LF completes successfully: the RCPT command carrying
the recipient is written to the transport (its wire line contains CR LF,
injecting a second command line), and no ErrCRLFContain is raised. -/
theorem sendTransmitsCRLFRecipient :
    ((Client.Send (NewClient "mail.example.com:25")
      { From := "a@x.com", To := ["b@y.com>\r\nDATA"], Cc := [], Bcc := [],
        Subject := "hi", Header := [], Body := "hello", StartTLS := false,
        TLSConfig := none }
      (Except.ok [⟨250, "mail.example.com"⟩, ⟨250, "ok"⟩, ⟨250, "ok"⟩,
        ⟨354, "go"⟩, ⟨250, "ok"⟩, ⟨221, "bye"⟩])).1 = Except.ok ()) ∧
    (Command.rcptTo "b@y.com>\r\nDATA" ∈ sendTrace (Client.Send (NewClient "mail.example.com:25")
      { From := "a@x.com", To := ["b@y.com>\r\nDATA"], Cc := [], Bcc := [],
        Subject := "hi", Header := [], Body := "hello", StartTLS := false,
        TLSConfig := none }
      (Except.ok [⟨250, "mail.example.com"⟩, ⟨250, "ok"⟩, ⟨250, "ok"⟩,
        ⟨354, "go"⟩, ⟨250, "ok"⟩, ⟨221, "bye"⟩]))) ∧
    (containsCRLF "b@y.com>\r\nDATA" = true) ∧
    (containsCRLF (Command.wire (Command.rcptTo "b@y.com>\r\nDATA")) = true) :=
  ⟨rfl, by decide, rfl, rfl⟩

/-- C6 (code_bug evidence): capability state survives into a HELO-only
session.  A client whose capability map still holds 8BITMIME and STARTTLS
from an earlier successful EHLO greeting runs a Send in which every EHLO is
rejected (500) and every HELO accepted (250); the stale map is never cleared,
so the session still issues STARTTLS and sends MAIL FROM with BODY=8BITMIME,
both capability-dependent behaviors the claim rules out. -/
theorem staleCapabilitiesSurviveHELOFallback :
    ((Client.Send
      { remoteHost := "mail.example.com:25", localHost := "localhost",
        ext := some [("8BITMIME", ""), ("STARTTLS", "")], auth := [] }
      { From := "a@x.com", To := ["b@y.com"], Cc := [], Bcc := [],
        Subject := "hi", Header := [], Body := "", StartTLS := true,
        TLSConfig := none }
      (Except.ok [⟨500, "unknown"⟩, ⟨250, "ok"⟩, ⟨220, "go"⟩, ⟨500, "unknown"⟩,
        ⟨250, "ok"⟩, ⟨250, "ok"⟩, ⟨250, "ok"⟩, ⟨354, "go"⟩, ⟨250, "ok"⟩,
        ⟨221, "bye"⟩])).1 = Except.ok ()) ∧
    (sendTrace (Client.Send
      { remoteHost := "mail.example.com:25", localHost := "localhost",
        ext := some [("8BITMIME", ""), ("STARTTLS", "")], auth := [] }
      { From := "a@x.com", To := ["b@y.com"], Cc := [], Bcc := [],
        Subject := "hi", Header := [], Body := "", StartTLS := true,
        TLSConfig := none }
      (Except.ok [⟨500, "unknown"⟩, ⟨250, "ok"⟩, ⟨220, "go"⟩, ⟨500, "unknown"⟩,
        ⟨250, "ok"⟩, ⟨250, "ok"⟩, ⟨250, "ok"⟩, ⟨354, "go"⟩, ⟨250, "ok"⟩,
        ⟨221, "bye"⟩])) =
      [Command.ehlo "localhost", Command.helo "localhost", Command.starttls,
       Command.ehlo "localhost", Command.helo "localhost",
       Command.mailFrom "a@x.com" true, Command.rcptTo "b@y.com",
       Command.data, Command.quit]) :=
  ⟨rfl, rfl⟩

/-- C7 (code_bug evidence): when STARTTLS runs with no caller TLS
configuration, the default configuration names c.remoteHost, which is the
full remote identifier including the port, not its host part: the installed
ServerName is "mail.example.com:25", which differs from the host part
"mail.example.com".  The rest of the claim does hold on this execution: after
the 220 response the framing is rebuilt on the TLS stream and a fresh EHLO
runs over it, as the trace shows. -/
theorem defaultTLSConfigUsesFullRemoteIdentifier :
    ((Client.Send (NewClient "mail.example.com:25")
      { From := "a@x.com", To := ["b@y.com"], Cc := [], Bcc := [],
        Subject := "hi", Header := [], Body := "", StartTLS := true,
        TLSConfig := none }
      (Except.ok [⟨250, "mail.example.com\nSTARTTLS"⟩, ⟨220, "go"⟩,
        ⟨250, "mail.example.com\nSTARTTLS"⟩, ⟨250, "ok"⟩, ⟨250, "ok"⟩,
        ⟨354, "go"⟩, ⟨250, "ok"⟩, ⟨221, "bye"⟩])).2.2.2.map
        (fun st => st.tlsConfig) = some (some ⟨"mail.example.com:25"⟩)) ∧
    ((Client.Send (NewClient "mail.example.com:25")
      { From := "a@x.com", To := ["b@y.com"], Cc := [], Bcc := [],
        Subject := "hi", Header := [], Body := "", StartTLS := true,
        TLSConfig := none }
      (Except.ok [⟨250, "mail.example.com\nSTARTTLS"⟩, ⟨220, "go"⟩,
        ⟨250, "mail.example.com\nSTARTTLS"⟩, ⟨250, "ok"⟩, ⟨250, "ok"⟩,
        ⟨354, "go"⟩, ⟨250, "ok"⟩, ⟨221, "bye"⟩])).2.2.2.map
        (fun st => st.trace) = some
      [Command.ehlo "localhost", Command.starttls, Command.ehlo "localhost",
       Command.mailFrom "a@x.com" false, Command.rcptTo "b@y.com",
       Command.data, Command.quit]) ∧
    (("mail.example.com:25" : String) ≠ "mail.example.com") :=
  ⟨rfl, rfl, by decide⟩
